import Mathlib

/-!
Verification of the letterboxd-utils enrichment pipeline.

Shallow embedding of the core logic of `src/tmdb.ts` and
`src/content-script.ts`: the adaptive rate limiter, the TMDB client's
error behaviour, the title/year extractor, cache-key normalization, and
the cache/classify/resolve pipeline of `StreamFilter.processAllMovies`.
Strings are modelled as `List Char`, machine timestamps as `Int`
(millisecond counts), and fallible browser-storage reads as `Except`.
-/

namespace LetterboxdUtils

/-! ### Adaptive rate limiter (`TMDBClient.adaptiveFetch`, src/tmdb.ts) -/

/-- Field `minRPS = 1` of `TMDBClient`. -/
def minRPS : Int := 1

/-- Field `maxRPS = 30` of `TMDBClient`. -/
def maxRPS : Int := 30

/-- Field `rps = 10`, the initial request rate of `TMDBClient`. -/
def initialRPS : Int := 10

/-- The `Response.ok` predicate of the Fetch API: status in 200..299. -/
def responseOk (status : Nat) : Bool := decide (200 ≤ status) && decide (status ≤ 299)

/-- Update of `this.rps` performed by `adaptiveFetch` after one response:
on 429, `rps = Math.max(rps - 2, minRPS)`; on `response.ok`, if
`rps < maxRPS` then `rps = Math.min(maxRPS, rps + 1)`; otherwise unchanged. -/
def rpsAfterResponse (status : Nat) (rps : Int) : Int :=
  if status = 429 then max (rps - 2) minRPS
  else if responseOk status then
    (if rps < maxRPS then min maxRPS (rps + 1) else rps)
  else rps

/-- The rate after a sequence of responses with the given statuses. -/
def rpsAfterCalls (rps : Int) (statuses : List Nat) : Int :=
  statuses.foldl (fun acc s => rpsAfterResponse s acc) rps

lemma rpsAfterCalls_nil (r : Int) : rpsAfterCalls r [] = r := rfl

lemma rpsAfterCalls_cons (r : Int) (s : Nat) (l : List Nat) :
    rpsAfterCalls r (s :: l) = rpsAfterCalls (rpsAfterResponse s r) l := rfl

lemma rpsAfterResponse_429 (r : Int) :
    rpsAfterResponse 429 r = max (r - 2) minRPS := by
  simp [rpsAfterResponse]

lemma rpsAfterResponse_ok (s : Nat) (hs : responseOk s = true) (r : Int)
    (hr : r ≤ maxRPS) : rpsAfterResponse s r = min (r + 1) maxRPS := by
  have h429 : s ≠ 429 := by
    intro h
    subst h
    simp [responseOk] at hs
  rcases lt_or_eq_of_le hr with h | h
  · simp only [rpsAfterResponse, if_neg h429, hs, if_pos, if_pos h]
    rw [min_comm]
  · simp only [rpsAfterResponse, if_neg h429, hs, if_pos, h]
    simp [maxRPS]

lemma rpsAfterCalls_all429 (l : List Nat) (h : ∀ s ∈ l, s = 429) (r : Int)
    (h1 : minRPS ≤ r) :
    rpsAfterCalls r l = max (r - 2 * l.length) minRPS := by
  induction l generalizing r with
  | nil =>
      simp only [rpsAfterCalls_nil, List.length_nil, Nat.cast_zero, minRPS] at *
      rw [max_eq_left (by omega)]
      omega
  | cons s t ih =>
      have hs : s = 429 := h s (List.mem_cons_self s t)
      subst hs
      rw [rpsAfterCalls_cons, rpsAfterResponse_429]
      rw [ih (fun x hx => h x (List.mem_cons_of_mem _ hx)) _ (le_max_right _ _)]
      simp only [List.length_cons, minRPS]
      rcases le_total (r - 2) 1 with hc | hc
      · rw [max_eq_right hc]
        have : (r : Int) - 2 * (t.length + 1 : Nat) ≤ 1 - 2 * (t.length : Nat) := by
          push_cast
          omega
        rw [max_eq_right, max_eq_right] <;> push_cast <;> omega
      · rw [max_eq_left hc]
        congr 1
        push_cast
        ring

lemma rpsAfterCalls_allOk (l : List Nat) (h : ∀ s ∈ l, responseOk s = true)
    (r : Int) (h2 : r ≤ maxRPS) :
    rpsAfterCalls r l = min (r + l.length) maxRPS := by
  induction l generalizing r with
  | nil =>
      simp only [rpsAfterCalls_nil, List.length_nil, Nat.cast_zero, maxRPS] at *
      rw [min_eq_left (by omega)]
      omega
  | cons s t ih =>
      have hs : responseOk s = true := h s (List.mem_cons_self s t)
      rw [rpsAfterCalls_cons, rpsAfterResponse_ok s hs r h2]
      rw [ih (fun x hx => h x (List.mem_cons_of_mem _ hx)) _ (min_le_right _ _)]
      simp only [List.length_cons, maxRPS]
      rcases le_total (r + 1) 30 with hc | hc
      · rw [min_eq_left hc]
        rcases le_total (r + 1 + (t.length : Int)) 30 with hd | hd
        · rw [min_eq_left hd, min_eq_left]
          · push_cast
            omega
          · push_cast
            omega
        · rw [min_eq_right hd, min_eq_right]
          push_cast
          omega
      · rw [min_eq_right hc, min_eq_right]
        · rw [min_eq_right]
          push_cast
          omega
        · omega

lemma rpsAfterResponse_bounds (s : Nat) (r : Int) (h1 : minRPS ≤ r)
    (h2 : r ≤ maxRPS) :
    minRPS ≤ rpsAfterResponse s r ∧ rpsAfterResponse s r ≤ maxRPS := by
  simp only [rpsAfterResponse, minRPS, maxRPS] at *
  split
  · constructor
    · exact le_max_right _ _
    · rw [max_le_iff]
      omega
  · split
    · split
      · constructor
        · rw [le_min_iff]
          omega
        · exact min_le_left _ _
      · omega
    · omega

/-- **C1.** Starting from any rate in `[minRPS, maxRPS]`, each 429 response
lowers the rate by the fixed step 2 floored at `minRPS` and each successful
(2xx) response raises it by the fixed step 1 capped at `maxRPS`; the rate
always stays within `[minRPS, maxRPS]`; any run of at least 15 consecutive
429 responses drives the rate to exactly `minRPS`, and any run of at least
29 consecutive successes drives it to exactly `maxRPS`. -/
theorem rate_adaptation_C1 (r : Int) (h1 : minRPS ≤ r) (h2 : r ≤ maxRPS) :
    (rpsAfterResponse 429 r = max (r - 2) minRPS) ∧
    (∀ s, responseOk s = true → rpsAfterResponse s r = min (r + 1) maxRPS) ∧
    (∀ l, (∀ s ∈ l, s = 429) → rpsAfterCalls r l = max (r - 2 * l.length) minRPS) ∧
    (∀ l, (∀ s ∈ l, responseOk s = true) →
      rpsAfterCalls r l = min (r + l.length) maxRPS) ∧
    (∀ l, (∀ s ∈ l, s = 429) → 15 ≤ l.length → rpsAfterCalls r l = minRPS) ∧
    (∀ l, (∀ s ∈ l, responseOk s = true) → 29 ≤ l.length →
      rpsAfterCalls r l = maxRPS) ∧
    (∀ l, minRPS ≤ rpsAfterCalls r l ∧ rpsAfterCalls r l ≤ maxRPS) := by
  refine ⟨rpsAfterResponse_429 r, fun s hs => rpsAfterResponse_ok s hs r h2,
    fun l hl => rpsAfterCalls_all429 l hl r h1,
    fun l hl => rpsAfterCalls_allOk l hl r h2, ?_, ?_, ?_⟩
  · intro l hl hlen
    rw [rpsAfterCalls_all429 l hl r h1, max_eq_right]
    simp only [minRPS, maxRPS] at *
    have : (15 : Int) ≤ (l.length : Int) := by exact_mod_cast hlen
    omega
  · intro l hl hlen
    rw [rpsAfterCalls_allOk l hl r h2, min_eq_right]
    simp only [minRPS, maxRPS] at *
    have : (29 : Int) ≤ (l.length : Int) := by exact_mod_cast hlen
    omega
  · intro l
    induction l generalizing r with
    | nil => exact ⟨h1, h2⟩
    | cons s t ih =>
        rw [rpsAfterCalls_cons]
        have hb := rpsAfterResponse_bounds s r h1 h2
        exact ih _ hb.1 hb.2

/-- Concrete instance of `rate_adaptation_C1` at the initial rate 10:
15 consecutive 429s floor the rate at 1 and 29 consecutive 200s cap it
at 30. -/
theorem rate_adaptation_C1_witness :
    rpsAfterCalls initialRPS (List.replicate 15 429) = minRPS ∧
    rpsAfterCalls initialRPS (List.replicate 29 200) = maxRPS := by
  have h := rate_adaptation_C1 initialRPS (by decide) (by decide)
  refine ⟨h.2.2.2.2.1 _ ?_ (by simp), h.2.2.2.2.2.1 _ ?_ (by simp)⟩
  · intro s hs
    exact List.eq_of_mem_replicate hs
  · intro s hs
    rw [List.eq_of_mem_replicate hs]
    decide

/-! ### Strings, the title/year extractor and cache-key normalization
(`StreamFilter.getMovieElementInfo`, `normalizeTitle`, `getCacheKey`) -/

/-- Strings are modelled as lists of characters. -/
abbrev Str := List Char

/-- The JS `\s` class restricted to the whitespace characters that occur in
page text: space, tab, line feed, carriage return. -/
def isWsChar (c : Char) : Bool := c = ' ' || c = '\t' || c = '\n' || c = '\r'

/-- The JS `\w` class: ASCII letters, digits and underscore. -/
def isWordChar (c : Char) : Bool :=
  ('a' ≤ c && c ≤ 'z') || ('A' ≤ c && c ≤ 'Z') || ('0' ≤ c && c ≤ '9') || c = '_'

/-- `String.prototype.trim()`: drop whitespace from both ends. -/
def trimStr (l : Str) : Str :=
  ((l.dropWhile isWsChar).reverse.dropWhile isWsChar).reverse

/-- Helper for `collapseWs`: the flag records whether the previous
character belonged to a whitespace run (whose single replacement space has
already been emitted). -/
def collapseWsAux : Bool → Str → Str
  | _, [] => []
  | true, c :: rest =>
    if isWsChar c then collapseWsAux true rest
    else c :: collapseWsAux false rest
  | false, c :: rest =>
    if isWsChar c then ' ' :: collapseWsAux true rest
    else c :: collapseWsAux false rest

/-- `title.replace(/\s+/g, ' ')`: every maximal whitespace run becomes a
single space. -/
def collapseWs (l : Str) : Str := collapseWsAux false l

/-- `StreamFilter.normalizeTitle`: collapse whitespace to single spaces,
strip every character matching `[^\w\s]`, trim, then lowercase — in that
order. -/
def normalizeTitle (l : Str) : Str :=
  (trimStr ((collapseWs l).filter (fun c => isWordChar c || isWsChar c))).map Char.toLower

/-- `StreamFilter.getCacheKey`: normalized title, `'-'`, then the year. -/
def getCacheKey (title year : Str) : Str :=
  normalizeTitle title ++ '-' :: year

/-- One attempt of the regex `/\((\d{4})\)/` at the head of the text:
on success, the four captured digits and the remainder after the `')'`. -/
def yearMatchHead : Str → Option (Str × Str)
  | '(' :: a :: b :: c :: d :: ')' :: rest =>
    if a.isDigit && b.isDigit && c.isDigit && d.isDigit then some ([a, b, c, d], rest)
    else none
  | _ => none

/-- First match of `/\((\d{4})\)/` in the text: the part before the match,
the four captured digits, and the part after the match. -/
def findYearMatch : Str → Option (Str × Str × Str)
  | [] => none
  | c :: rest =>
    match yearMatchHead (c :: rest) with
    | some (ds, after) => some ([], ds, after)
    | none =>
      match findYearMatch rest with
      | some (p, ds, after) => some (c :: p, ds, after)
      | none => none

/-- Whether the regex `/\((\d{4})\)/` matches at offset `i` of the text. -/
def matchAtPos (l : Str) (i : Nat) : Bool := (yearMatchHead (l.drop i)).isSome

/-- Title and year extracted from the display text of one movie element. -/
structure ExtractedInfo where
  title : Str
  year : Str
deriving Repr, DecidableEq

/-- Lines 93–98 of `StreamFilter.getMovieElementInfo`: trim the display
text, find the first `/\((\d{4})\)/` match, capture the digits as the year
and remove the matched text from the title, trimming again. Absence of a
match leaves the year empty. -/
def extractTitleYear (raw : Str) : ExtractedInfo :=
  let t := trimStr raw
  match findYearMatch t with
  | some (p, ds, after) => ⟨trimStr (p ++ after), ds⟩
  | none => ⟨t, []⟩

/-- Modelled from the spec sentence "Year is recognized as a four-digit
parenthesized suffix": the text ends with `(` followed by four digits and
`)`. Used only to compare the spec's wording against the code. -/
def endsWithYearSuffix (t : Str) : Bool :=
  match t.reverse with
  | ')' :: d :: c :: b :: a :: '(' :: _ =>
    a.isDigit && b.isDigit && c.isDigit && d.isDigit
  | _ => false

/-- A double space somewhere in the text. -/
def hasDoubleSpace : Str → Bool
  | ' ' :: ' ' :: _ => true
  | _ :: rest => hasDoubleSpace rest
  | [] => false

lemma findYearMatch_eq_none {l : Str} (h : ∀ i, matchAtPos l i = false) :
    findYearMatch l = none := by
  induction l with
  | nil => rfl
  | cons c rest ih =>
      cases hy : yearMatchHead (c :: rest) with
      | some v =>
          exfalso
          have h0 := h 0
          simp [matchAtPos, hy] at h0
      | none =>
          simp only [findYearMatch, hy, ih (fun i => h (i + 1))]

lemma findYearMatch_eq_some {i : Nat} :
    ∀ {l ds after : Str},
      yearMatchHead (l.drop i) = some (ds, after) →
      (∀ j, j < i → matchAtPos l j = false) →
      findYearMatch l = some (l.take i, ds, after) := by
  induction i with
  | zero =>
      intro l ds after h _
      cases l with
      | nil => simp [yearMatchHead] at h
      | cons c rest =>
          rw [List.drop_zero] at h
          simp only [findYearMatch, h, List.take_zero]
  | succ i ih =>
      intro l ds after h hj
      cases l with
      | nil => simp [yearMatchHead] at h
      | cons c rest =>
          have h0 : yearMatchHead (c :: rest) = none := by
            have hm := hj 0 (Nat.succ_pos i)
            cases hy : yearMatchHead (c :: rest) with
            | some v => simp [matchAtPos, hy] at hm
            | none => rfl
          have hrest := ih (l := rest) (by simpa using h)
            (fun j hjlt => hj (j + 1) (Nat.succ_lt_succ hjlt))
          simp only [findYearMatch, h0, hrest, List.take_succ_cons]

/-- **C2 counterexample.** The display text `"(1999) Movie"` does not end
with a four-digit parenthesized suffix, yet the extractor returns the year
`"1999"` (the regex `/\((\d{4})\)/` is unanchored and matches anywhere),
refuting the claim that a text without a trailing `(YYYY)` suffix always
yields an empty year. -/
theorem extractor_C2_counterexample :
    endsWithYearSuffix (String.toList "(1999) Movie") = false ∧
    (extractTitleYear (String.toList "(1999) Movie")).year = String.toList "1999" ∧
    (extractTitleYear (String.toList "(1999) Movie")).title = String.toList "Movie" := by
  decide

/-- **C2 (amended).** The extractor recognizes the year as the *first*
four-digit parenthesized group anywhere in the (trimmed) display text, not
only as a trailing suffix: if no position of the trimmed text matches
`/\((\d{4})\)/` then the year is empty and the title is the trimmed text
(no error is raised, the extractor is total); if position `i` is the first
match, the year is the four captured digits and the title is the text with
the six matched characters removed and trimmed. -/
theorem extractor_C2_amended (raw : Str) :
    ((∀ i, matchAtPos (trimStr raw) i = false) →
      extractTitleYear raw = ⟨trimStr raw, []⟩) ∧
    (∀ i ds after, yearMatchHead ((trimStr raw).drop i) = some (ds, after) →
      (∀ j, j < i → matchAtPos (trimStr raw) j = false) →
      extractTitleYear raw = ⟨trimStr ((trimStr raw).take i ++ after), ds⟩) := by
  constructor
  · intro h
    simp only [extractTitleYear, findYearMatch_eq_none h]
  · intro i ds after h hj
    simp only [extractTitleYear, findYearMatch_eq_some h hj]

/-- Concrete instance of `extractor_C2_amended`: on `"Movie Title (1999)"`
the first match is the trailing suffix at offset 12, and extraction
separates title and year exactly. -/
theorem extractor_C2_amended_witness :
    extractTitleYear (String.toList "Movie Title (1999)") =
      ⟨String.toList "Movie Title", String.toList "1999"⟩ := by
  have h := (extractor_C2_amended (String.toList "Movie Title (1999)")).2 12
    (String.toList "1999") [] (by decide) (by decide)
  exact h.trans (by decide)

lemma char_le_iff {a b : Char} : a ≤ b ↔ a.toNat ≤ b.toNat := by
  rw [Char.le_def, UInt32.le_def, BitVec.le_def]
  rfl

lemma char_eq_iff {a b : Char} : a = b ↔ a.toNat = b.toNat := by
  constructor
  · intro h
    rw [h]
  · intro h
    exact Char.ext (UInt32.toNat.inj h)

lemma toNat_toLower (c : Char) :
    (Char.toLower c).toNat =
      if 65 ≤ c.toNat ∧ c.toNat ≤ 90 then c.toNat + 32 else c.toNat := by
  rw [Char.toLower]
  split
  · rename_i h
    have hv : Nat.isValidChar (c.toNat + 32) := Or.inl (by omega)
    rw [Char.ofNat, dif_pos hv]
    rfl
  · rfl

lemma toLower_not_upper (c : Char) : 'A' ≤ Char.toLower c ∧ Char.toLower c ≤ 'Z' → False := by
  intro h
  rw [char_le_iff, char_le_iff] at h
  have hA : ('A' : Char).toNat = 65 := rfl
  have hZ : ('Z' : Char).toNat = 90 := rfl
  rw [hA, hZ] at h
  have ht := toNat_toLower c
  by_cases hc : 65 ≤ c.toNat ∧ c.toNat ≤ 90
  · rw [if_pos hc] at ht
    omega
  · rw [if_neg hc] at ht
    omega

lemma toLower_eq_space {c : Char} (h : Char.toLower c = ' ') : c = ' ' := by
  rw [char_eq_iff] at h ⊢
  have hs : (' ' : Char).toNat = 32 := rfl
  rw [hs] at h ⊢
  have ht := toNat_toLower c
  by_cases hc : 65 ≤ c.toNat ∧ c.toNat ≤ 90
  · rw [if_pos hc] at ht
    omega
  · rw [if_neg hc] at ht
    omega

lemma isWordChar_iff (c : Char) :
    isWordChar c = true ↔
      (97 ≤ c.toNat ∧ c.toNat ≤ 122) ∨ (65 ≤ c.toNat ∧ c.toNat ≤ 90) ∨
      (48 ≤ c.toNat ∧ c.toNat ≤ 57) ∨ c.toNat = 95 := by
  simp only [isWordChar, Bool.or_eq_true, Bool.and_eq_true, decide_eq_true_eq,
    char_le_iff, char_eq_iff]
  show (((97 ≤ c.toNat ∧ c.toNat ≤ 122) ∨ (65 ≤ c.toNat ∧ c.toNat ≤ 90)) ∨
      (48 ≤ c.toNat ∧ c.toNat ≤ 57)) ∨ c.toNat = 95 ↔ _
  omega

lemma toLower_word_or_space {c : Char} (h : (isWordChar c || c = ' ') = true) :
    (isWordChar (Char.toLower c) || Char.toLower c = ' ') = true := by
  simp only [Bool.or_eq_true, decide_eq_true_eq] at h ⊢
  have ht := toNat_toLower c
  by_cases hc : 65 ≤ c.toNat ∧ c.toNat ≤ 90
  · rw [if_pos hc] at ht
    left
    rw [isWordChar_iff]
    omega
  · rw [if_neg hc] at ht
    rcases h with h | h
    · left
      rw [isWordChar_iff] at h ⊢
      omega
    · right
      rw [char_eq_iff] at h ⊢
      have hs : (' ' : Char).toNat = 32 := rfl
      omega

lemma mem_trimStr {c : Char} {l : Str} (h : c ∈ trimStr l) : c ∈ l := by
  simp only [trimStr, List.mem_reverse] at h
  have h2 : c ∈ (List.dropWhile isWsChar l).reverse :=
    List.Sublist.mem h (List.dropWhile_sublist _)
  rw [List.mem_reverse] at h2
  exact List.Sublist.mem h2 (List.dropWhile_sublist _)

lemma mem_collapseWsAux_ws {l : Str} :
    ∀ {b : Bool} {c : Char}, c ∈ collapseWsAux b l → isWsChar c = true → c = ' ' := by
  induction l with
  | nil =>
      intro b c h _
      simp [collapseWsAux] at h
  | cons d rest ih =>
      intro b c h hw
      cases b with
      | true =>
          rw [collapseWsAux] at h
          by_cases hd : isWsChar d = true
          · rw [if_pos hd] at h
            exact ih h hw
          · rw [if_neg hd] at h
            rcases List.mem_cons.mp h with h | h
            · subst h
              exact absurd hw hd
            · exact ih h hw
      | false =>
          rw [collapseWsAux] at h
          by_cases hd : isWsChar d = true
          · rw [if_pos hd] at h
            rcases List.mem_cons.mp h with h | h
            · exact h
            · exact ih h hw
          · rw [if_neg hd] at h
            rcases List.mem_cons.mp h with h | h
            · subst h
              exact absurd hw hd
            · exact ih h hw

lemma mem_collapseWs_ws {l : Str} {c : Char} (h : c ∈ collapseWs l)
    (hw : isWsChar c = true) : c = ' ' :=
  mem_collapseWsAux_ws h hw

lemma head?_dropWhile_false {p : Char → Bool} {l : Str} {c : Char}
    (h : (l.dropWhile p).head? = some c) : p c = false := by
  have hm := List.head?_dropWhile_not p l
  rw [h] at hm
  exact hm

lemma head?_trimStr_not_ws {l : Str} {c : Char}
    (h : (trimStr l).head? = some c) : isWsChar c = false := by
  obtain ⟨t, ht⟩ := List.dropWhile_suffix (l := (l.dropWhile isWsChar).reverse) isWsChar
  set B := ((l.dropWhile isWsChar).reverse).dropWhile isWsChar with hB
  have hA : l.dropWhile isWsChar = B.reverse ++ t.reverse := by
    have := congrArg List.reverse ht
    rw [List.reverse_append, List.reverse_reverse] at this
    exact this.symm
  rw [trimStr] at h
  cases hBr : B.reverse with
  | nil => rw [hBr] at h; simp at h
  | cons b bs =>
      rw [hBr] at h
      simp only [List.head?_cons, Option.some_inj] at h
      have hhead : (l.dropWhile isWsChar).head? = some c := by
        rw [hA, hBr, ← h]
        rfl
      exact head?_dropWhile_false hhead

lemma getLast?_trimStr_not_ws {l : Str} {c : Char}
    (h : (trimStr l).getLast? = some c) : isWsChar c = false := by
  rw [trimStr, List.getLast?_reverse] at h
  exact head?_dropWhile_false h

/-- **C7 counterexample.** `normalizeTitle "a . b"` is `"a  b"`: the
whitespace collapse happens before punctuation stripping, so removing the
`'.'` leaves two consecutive spaces, refuting the claim that the normalized
output contains no consecutive whitespace. -/
theorem normalize_C7_counterexample :
    normalizeTitle (String.toList "a . b") = String.toList "a  b" ∧
    hasDoubleSpace (normalizeTitle (String.toList "a . b")) = true := by
  decide

/-- **C7 (amended).** `normalizeTitle` lowercases, strips every character
outside `\w` and `\s`, and trims, and the derivation is deterministic in the
input; every character of the output is a word character or a space (no
punctuation), no character is an ASCII uppercase letter, and the output
neither starts nor ends with a space. (Because whitespace is collapsed
*before* punctuation is stripped, consecutive spaces can remain — see the
counterexample.) -/
theorem normalize_C7_amended (l : Str) :
    (∀ c ∈ normalizeTitle l, (isWordChar c || c = ' ') = true) ∧
    (∀ c ∈ normalizeTitle l, 'A' ≤ c ∧ c ≤ 'Z' → False) ∧
    (normalizeTitle l).head? ≠ some ' ' ∧
    (normalizeTitle l).getLast? ≠ some ' ' := by
  refine ⟨?_, ?_, ?_, ?_⟩
  · intro c hc
    rw [normalizeTitle] at hc
    obtain ⟨d, hd, rfl⟩ := List.mem_map.mp hc
    have hdf := mem_trimStr hd
    have hq := (List.mem_filter.mp hdf).2
    apply toLower_word_or_space
    rcases Bool.or_eq_true _ _ |>.mp hq with hw | hws
    · rw [hw]
      rfl
    · rw [mem_collapseWs_ws (List.mem_filter.mp hdf).1 hws]
      simp
  · intro c hc
    rw [normalizeTitle] at hc
    obtain ⟨d, _, rfl⟩ := List.mem_map.mp hc
    exact toLower_not_upper d
  · intro h
    rw [normalizeTitle, List.head?_map] at h
    cases hh : (trimStr ((collapseWs l).filter fun c => isWordChar c || isWsChar c)).head? with
    | none => rw [hh] at h; simp at h
    | some d =>
        rw [hh] at h
        simp only [Option.map_some', Option.some_inj] at h
        have hd := toLower_eq_space h
        rw [hd] at hh
        have := head?_trimStr_not_ws hh
        simp [isWsChar] at this
  · intro h
    rw [normalizeTitle] at h
    have hrw : ((trimStr ((collapseWs l).filter fun c => isWordChar c || isWsChar c)).map
        Char.toLower).getLast? =
        ((trimStr ((collapseWs l).filter fun c => isWordChar c || isWsChar c)).getLast?).map
          Char.toLower := by
      rw [← List.head?_reverse, ← List.map_reverse, List.head?_map, List.head?_reverse]
    rw [hrw] at h
    cases hh : (trimStr ((collapseWs l).filter fun c => isWordChar c || isWsChar c)).getLast? with
    | none => rw [hh] at h; simp at h
    | some d =>
        rw [hh] at h
        simp only [Option.map_some', Option.some_inj] at h
        have hd := toLower_eq_space h
        rw [hd] at hh
        have := getLast?_trimStr_not_ws hh
        simp [isWsChar] at this

/-- Concrete instance of `normalize_C7_amended` on the input `" Ab c! "`,
whose normalization is `"ab c"`: the member `'a'` is a word character and
not uppercase, and the ends of the output are not spaces. -/
theorem normalize_C7_amended_witness :
    (isWordChar 'a' || 'a' = ' ') = true ∧
    ('A' ≤ 'a' ∧ 'a' ≤ 'Z' → False) ∧
    (normalizeTitle (String.toList " Ab c! ")).head? ≠ some ' ' ∧
    (normalizeTitle (String.toList " Ab c! ")).getLast? ≠ some ' ' := by
  have h := normalize_C7_amended (String.toList " Ab c! ")
  exact ⟨h.1 'a' (by decide), h.2.1 'a' (by decide), h.2.2.1, h.2.2.2⟩

/-! ### TMDB client lookups (`TMDBClient.searchMovie`,
`TMDBClient.getStreamingProviders`, src/tmdb.ts) -/

/-- A TMDB movie search result (the fields the code uses). -/
structure TMDBMovieSearchResult where
  id : Nat
  popularity : Int
deriving Repr, DecidableEq

/-- Body of a TMDB `/search/movie` response. -/
structure TMDBSearchResponse where
  total_results : Nat
  results : List TMDBMovieSearchResult
deriving Repr, DecidableEq

/-- Insertion step of the stable descending-popularity sort performed by
`results.sort((a, b) => b.popularity - a.popularity)`. -/
def insertPopDesc (a : TMDBMovieSearchResult) :
    List TMDBMovieSearchResult → List TMDBMovieSearchResult
  | [] => [a]
  | b :: t => if b.popularity < a.popularity then a :: b :: t else b :: insertPopDesc a t

/-- Stable sort by descending popularity. -/
def sortPopDesc (l : List TMDBMovieSearchResult) : List TMDBMovieSearchResult :=
  l.foldr insertPopDesc []

/-- `TMDBClient.searchMovie` once the response has arrived: on a non-ok
response throw an error carrying the status (`TMDB search failed`);
otherwise return `none` ("not found") when `total_results` is 0, else the
most popular result (`[0] || null` on the sorted array). -/
def searchMovieOutcome (status : Nat) (data : TMDBSearchResponse) :
    Except Nat (Option TMDBMovieSearchResult) :=
  if responseOk status = false then Except.error status
  else if data.total_results = 0 then Except.ok none
  else Except.ok (sortPopDesc data.results).head?

/-- One entry of a region's provider list. -/
structure Provider where
  provider_id : Nat
  provider_name : Str
deriving Repr, DecidableEq

/-- One region's data in a `/watch/providers` response; `flatrate` may be
absent. -/
structure ProviderCountry where
  flatrate : Option (List Provider)
deriving Repr, DecidableEq

/-- The `results` map of a `/watch/providers` response, an association list
from country code to region data. -/
abbrev WatchProviderResults := List (Str × ProviderCountry)

/-- `TMDBClient.getStreamingProviders` once the response has arrived: on a
non-ok response throw an error carrying the status (`TMDB providers
failed`); otherwise `data.results[countryCode] || {}` followed by
`countryData.flatrate?.map(p => p.provider_name.toLowerCase()) || []`. -/
def getStreamingProvidersOutcome (status : Nat) (results : WatchProviderResults)
    (countryCode : Str) : Except Nat (List Str) :=
  if responseOk status = false then Except.error status
  else Except.ok (
    match List.lookup countryCode results with
    | none => []
    | some countryData =>
      match countryData.flatrate with
      | none => []
      | some ps => ps.map (fun p => p.provider_name.map Char.toLower))

/-- **C3 counterexample.** A 429 response *does* produce the error carrying
the status code: both lookups check `response.ok`, which is false for 429,
and throw — `adaptiveFetch` only lowers the request rate and still returns
the 429 response. This refutes the claim that a 429 response does not
produce that error. -/
theorem lookup_error_C3_counterexample :
    searchMovieOutcome 429 ⟨0, []⟩ = Except.error 429 ∧
    getStreamingProvidersOutcome 429 [] [] = Except.error 429 :=
  ⟨rfl, rfl⟩

/-- **C3 (amended).** A lookup (movie search or provider lookup) fails with
an error carrying the HTTP status code exactly when the response status is
non-2xx — *including* 429; and zero search matches on a successful response
is returned as not-found (`Except.ok none`) rather than raised as an
error. -/
theorem lookup_error_C3_amended (status : Nat) (data : TMDBSearchResponse)
    (results : WatchProviderResults) (cc : Str) :
    (responseOk status = false →
      searchMovieOutcome status data = Except.error status ∧
      getStreamingProvidersOutcome status results cc = Except.error status) ∧
    (responseOk status = true →
      (∀ e, searchMovieOutcome status data ≠ Except.error e) ∧
      (∀ e, getStreamingProvidersOutcome status results cc ≠ Except.error e)) ∧
    (responseOk status = true → data.total_results = 0 →
      searchMovieOutcome status data = Except.ok none) := by
  refine ⟨?_, ?_, ?_⟩
  · intro h
    constructor
    · simp [searchMovieOutcome, h]
    · simp [getStreamingProvidersOutcome, h]
  · intro h
    constructor
    · intro e
      simp only [searchMovieOutcome, h]
      split
      · simp_all
      · split
        · simp
        · simp
    · intro e
      simp only [getStreamingProvidersOutcome, h]
      split
      · simp_all
      · simp
  · intro h h0
    simp [searchMovieOutcome, h, h0]

/-- Concrete instance of `lookup_error_C3_amended`: a 404 fails both
lookups with the status 404, and a 200 with zero matches returns
not-found. -/
theorem lookup_error_C3_amended_witness :
    searchMovieOutcome 404 ⟨1, []⟩ = Except.error 404 ∧
    getStreamingProvidersOutcome 404 [] [] = Except.error 404 ∧
    searchMovieOutcome 200 ⟨0, []⟩ = Except.ok none := by
  have h1 := (lookup_error_C3_amended 404 ⟨1, []⟩ [] []).1 (by decide)
  have h2 := (lookup_error_C3_amended 200 ⟨0, []⟩ [] []).2.2 (by decide) rfl
  exact ⟨h1.1, h1.2, h2⟩

/-- **C9.** On a successful (2xx) provider lookup: if the configured region
code is absent from the response's results map, or the region has no
flat-rate list, the lookup returns the empty list rather than failing; and
every returned provider name is lowercased (no character of any returned
name is an ASCII uppercase letter). -/
theorem providers_C9 (status : Nat) (results : WatchProviderResults) (cc : Str)
    (h : responseOk status = true) :
    (List.lookup cc results = none →
      getStreamingProvidersOutcome status results cc = Except.ok []) ∧
    (∀ pc, List.lookup cc results = some pc → pc.flatrate = none →
      getStreamingProvidersOutcome status results cc = Except.ok []) ∧
    (∀ out, getStreamingProvidersOutcome status results cc = Except.ok out →
      ∀ name ∈ out, ∀ c ∈ name, 'A' ≤ c ∧ c ≤ 'Z' → False) := by
  refine ⟨?_, ?_, ?_⟩
  · intro hl
    simp [getStreamingProvidersOutcome, h, hl]
  · intro pc hl hf
    simp [getStreamingProvidersOutcome, h, hl, hf]
  · intro out hout name hname c hc
    simp only [getStreamingProvidersOutcome, h] at hout
    rw [if_neg (by simp)] at hout
    have hbody := Except.ok.inj hout
    subst hbody
    split at hname
    · simp at hname
    · split at hname
      · simp at hname
      · obtain ⟨p, _, rfl⟩ := List.mem_map.mp hname
        obtain ⟨d, _, rfl⟩ := List.mem_map.mp hc
        exact toLower_not_upper d

/-- Concrete instance of `providers_C9`: a 200 response whose results map
lacks the region `"US"` yields the empty provider list. -/
theorem providers_C9_witness :
    getStreamingProvidersOutcome 200
      [(String.toList "DE", ⟨some [⟨8, String.toList "Netflix"⟩]⟩)]
      (String.toList "US") = Except.ok [] := by
  exact (providers_C9 200
    [(String.toList "DE", ⟨some [⟨8, String.toList "Netflix"⟩]⟩)]
    (String.toList "US") (by decide)).1 (by decide)

/-! ### The two-tier cache and the enrichment pipeline
(`StreamFilter`, src/content-script.ts) -/

/-- `CACHE_LIFETIME_MS = 12 * 60 * 60 * 1000` (12 hours). -/
def CACHE_LIFETIME_MS : Int := 12 * 60 * 60 * 1000

/-- One `MovieCacheEntry`: optional `tmdbId`, optional `providers` array,
and the write timestamp. -/
structure MovieCacheEntry where
  tmdbId : Option Nat
  providers : Option (List Str)
  timestamp : Int
deriving Repr, DecidableEq

/-- The persisted `movieCache` object and the in-memory `Map`, modelled as
association lists with first-match lookup (writes are prepended). -/
abbrev MovieCache := List (Str × MovieCacheEntry)

/-- `StreamFilter.isCacheExpired`:
`Date.now() - entry.timestamp >= CACHE_LIFETIME_MS`. -/
def isCacheExpired (now : Int) (entry : MovieCacheEntry) : Bool :=
  decide (CACHE_LIFETIME_MS ≤ now - entry.timestamp)

/-- A movie poster element: its DOM identity and the text content of its
`.frame-title` child (`none` when that child is missing). -/
structure MovieElement where
  id : Nat
  titleText : Option Str
deriving Repr, DecidableEq

/-- `MovieElementInfo`, with the DOM reference replaced by the element
id. -/
structure MovieElementInfo where
  elementId : Nat
  title : Str
  year : Str
  cacheKey : Str
deriving Repr, DecidableEq

/-- `StreamFilter.getMovieElementInfo`: `null` when the element has no
`.frame-title` child; otherwise the extracted title and year plus the
derived cache key. -/
def getMovieElementInfoOf (el : MovieElement) : Option MovieElementInfo :=
  match el.titleText with
  | none => none
  | some raw =>
    let ex := extractTitleYear raw
    some ⟨el.id, ex.title, ex.year, getCacheKey ex.title ex.year⟩

/-- Step 1 of `processAllMovies` ("Collect"): skip elements already in
`processedElements`, extract info, silently drop elements whose info is
`null` or whose title is empty (`if (!info?.title) continue`). -/
def collectInfos (processed0 : List Nat) : List MovieElement → List MovieElementInfo
  | [] => []
  | el :: rest =>
    if processed0.contains el.id then collectInfos processed0 rest
    else
      match getMovieElementInfoOf el with
      | none => collectInfos processed0 rest
      | some info =>
        if info.title = [] then collectInfos processed0 rest
        else info :: collectInfos processed0 rest

/-- `StreamFilter.getMovieCacheEntry`: memory tier first, then the
persisted tier (whose read may fail, modelled by `Except`); a persisted hit
populates the memory tier before returning. -/
def getMovieCacheEntry {ε : Type} (mem : MovieCache)
    (storageRead : Except ε MovieCache) (key : Str) :
    Except ε (Option MovieCacheEntry × MovieCache) :=
  match List.lookup key mem with
  | some e => Except.ok (some e, mem)
  | none =>
    match storageRead with
    | Except.error err => Except.error err
    | Except.ok allCache =>
      match List.lookup key allCache with
      | some e => Except.ok (some e, (key, e) :: mem)
      | none => Except.ok (none, mem)

/-- Observable events of one `processAllMovies` batch, in execution
order. -/
inductive Event
  | classified (elementId : Nat)
  | resolvedMiss (elementId : Nat)
  | resolvedStale (elementId : Nat)
deriving Repr, DecidableEq

/-- The element id an event concerns. -/
def Event.idOf : Event → Nat
  | Event.classified i => i
  | Event.resolvedMiss i => i
  | Event.resolvedStale i => i

/-- State threaded through step 2 ("Classify") of `processAllMovies`. -/
structure ClassifyState where
  mem : MovieCache
  uncached : List MovieElementInfo
  expired : List MovieElementInfo
  updates : List (Nat × Bool)
  processed : List Nat
  trace : List Event
deriving Repr, DecidableEq

/-- `providers.some(p => this.targetProviders.has(p))`. -/
def hasTargetProvider (targets : List Str) (ps : List Str) : Bool :=
  ps.any (fun p => targets.contains p)

/-- One iteration of the classification loop (step 2 of
`processAllMovies`): look the key up through both cache tiers; on a hit
whose `providers` field is defined (`cached && cached.providers`), toggle
the element, mark it processed and — when expired — also push it on the
stale queue; otherwise push it on the miss queue. -/
def classifyOne {ε : Type} (now : Int) (targets : List Str)
    (storageRead : Except ε MovieCache) (st : ClassifyState)
    (info : MovieElementInfo) : Except ε ClassifyState :=
  match getMovieCacheEntry st.mem storageRead info.cacheKey with
  | Except.error e => Except.error e
  | Except.ok (entry?, mem') =>
    match entry? with
    | some entry =>
      match entry.providers with
      | some ps =>
        Except.ok
          { mem := mem'
            uncached := st.uncached
            expired := if isCacheExpired now entry then st.expired ++ [info] else st.expired
            updates := st.updates ++ [(info.elementId, hasTargetProvider targets ps)]
            processed := st.processed ++ [info.elementId]
            trace := st.trace ++ [Event.classified info.elementId] }
      | none =>
        Except.ok
          { mem := mem', uncached := st.uncached ++ [info], expired := st.expired,
            updates := st.updates, processed := st.processed,
            trace := st.trace ++ [Event.classified info.elementId] }
    | none =>
      Except.ok
        { mem := mem', uncached := st.uncached ++ [info], expired := st.expired,
          updates := st.updates, processed := st.processed,
          trace := st.trace ++ [Event.classified info.elementId] }

/-- The whole classification loop (step 2 of `processAllMovies`); a storage
error aborts it, as in the code, which has no try/catch here. -/
def classifyAll {ε : Type} (now : Int) (targets : List Str)
    (storageRead : Except ε MovieCache) :
    ClassifyState → List MovieElementInfo → Except ε ClassifyState
  | st, [] => Except.ok st
  | st, info :: rest =>
    match classifyOne now targets storageRead st info with
    | Except.error e => Except.error e
    | Except.ok st' => classifyAll now targets storageRead st' rest

/-- Network outcomes for one element: the retried `searchMovie` result
(`ok none` = not found, `error` = retries exhausted) and the retried
`getStreamingProviders` result. -/
structure NetOutcome where
  search : Except Unit (Option Nat)
  providers : Except Unit (List Str)

/-- `StreamFilter.processMovieWithTMDB`, reduced to the cache entry it
writes and the availability flag it applies: not-found and any caught
failure write a negative entry (`providers: []`, no `tmdbId`) and mark the
element unavailable; success writes `tmdbId`, the provider list and the
current time, and availability is the intersection with the target set. -/
def processMovieWithTMDB (now : Int) (targets : List Str) (net : NetOutcome) :
    MovieCacheEntry × Bool :=
  match net.search with
  | Except.error _ => (⟨none, some [], now⟩, false)
  | Except.ok none => (⟨none, some [], now⟩, false)
  | Except.ok (some movieId) =>
    match net.providers with
    | Except.error _ => (⟨none, some [], now⟩, false)
    | Except.ok ps => (⟨some movieId, some ps, now⟩, hasTargetProvider targets ps)

/-- State threaded through steps 3 and 4 ("Resolve") of
`processAllMovies`. -/
structure ResolveState where
  mem : MovieCache
  storage : MovieCache
  updates : List (Nat × Bool)
  processed : List Nat
  trace : List Event
deriving Repr, DecidableEq

/-- Steps 3 and 4 of `processAllMovies`: process one queue sequentially;
each element's lookup writes a fresh cache entry to both tiers
(`setMovieCache`), toggles the element and marks it processed. `mkEvent`
tags trace entries with `resolvedMiss` (step 3) or `resolvedStale`
(step 4). -/
def resolveAll (now : Int) (targets : List Str) (net : Nat → NetOutcome)
    (mkEvent : Nat → Event) :
    ResolveState → List MovieElementInfo → ResolveState
  | st, [] => st
  | st, info :: rest =>
    let r := processMovieWithTMDB now targets (net info.elementId)
    resolveAll now targets net mkEvent
      { mem := (info.cacheKey, r.1) :: st.mem
        storage := (info.cacheKey, r.1) :: st.storage
        updates := st.updates ++ [(info.elementId, r.2)]
        processed := st.processed ++ [info.elementId]
        trace := st.trace ++ [mkEvent info.elementId] } rest

/-- Result of one `processAllMovies` batch: the two queues frozen at the
end of classification, the element updates, the processed set, the final
cache tiers, and the event trace. -/
structure PipelineResult where
  uncached : List MovieElementInfo
  expired : List MovieElementInfo
  updates : List (Nat × Bool)
  processed : List Nat
  mem : MovieCache
  storage : MovieCache
  trace : List Event
deriving Repr, DecidableEq

/-- `StreamFilter.processAllMovies`: collect infos (step 1), classify them
all against the two cache tiers (step 2), then resolve the miss queue fully
(step 3) and the stale queue after it (step 4). `storageRead` is the
outcome of `browser.storage.local.get('movieCache')` and `processed0` the
`processedElements` set at batch start. -/
def processAllMovies {ε : Type} (now : Int) (targets : List Str)
    (processed0 : List Nat) (mem0 : MovieCache)
    (storageRead : Except ε MovieCache) (net : Nat → NetOutcome)
    (els : List MovieElement) : Except ε PipelineResult :=
  let infos := collectInfos processed0 els
  match classifyAll now targets storageRead ⟨mem0, [], [], [], processed0, []⟩ infos with
  | Except.error e => Except.error e
  | Except.ok cst =>
    let s0 := match storageRead with
      | Except.ok s => s
      | Except.error _ => []
    let r1 := resolveAll now targets net Event.resolvedMiss
      ⟨cst.mem, s0, cst.updates, cst.processed, cst.trace⟩ cst.uncached
    let r2 := resolveAll now targets net Event.resolvedStale r1 cst.expired
    Except.ok ⟨cst.uncached, cst.expired, r2.updates, r2.processed, r2.mem, r2.storage, r2.trace⟩

/-- The entry a classification sees for a key: memory tier first, else the
persisted tier. -/
def cacheLookup2 (mem s : MovieCache) (k : Str) : Option MovieCacheEntry :=
  match List.lookup k mem with
  | some e => some e
  | none => List.lookup k s

/-- An optional cache entry that classification treats as a miss: absent,
or present with an undefined `providers` field. -/
def isMiss : Option MovieCacheEntry → Bool
  | none => true
  | some e => e.providers.isNone

/-- An optional cache entry that classification pushes on the stale queue:
a hit with defined `providers` that is expired. -/
def isStaleHit (now : Int) : Option MovieCacheEntry → Bool
  | none => false
  | some e => e.providers.isSome && isCacheExpired now e

/-- The provider list a hit applies (defaulting to `[]`, unused for
misses). -/
def entryProviders : Option MovieCacheEntry → List Str
  | some e =>
    match e.providers with
    | some ps => ps
    | none => []
  | none => []

lemma cacheLookup2_memUpdate (mem s : MovieCache) (k k' : Str) (e : MovieCacheEntry)
    (hm : List.lookup k mem = none) (hs : List.lookup k s = some e) :
    cacheLookup2 ((k, e) :: mem) s k' = cacheLookup2 mem s k' := by
  by_cases hk : k' = k
  · subst hk
    simp [cacheLookup2, List.lookup, hm, hs]
  · have hne : (k' == k) = false := beq_eq_false_iff_ne.mpr hk
    simp [cacheLookup2, List.lookup, hne]

lemma getMovieCacheEntry_ok_spec {ε : Type} (mem s : MovieCache) (k : Str) :
    ∃ mem', getMovieCacheEntry (ε := ε) mem (Except.ok s) k =
        Except.ok (cacheLookup2 mem s k, mem') ∧
      ∀ k', cacheLookup2 mem' s k' = cacheLookup2 mem s k' := by
  cases hm : List.lookup k mem with
  | some e =>
      refine ⟨mem, ?_, fun k' => rfl⟩
      simp [getMovieCacheEntry, cacheLookup2, hm]
  | none =>
      cases hs : List.lookup k s with
      | some e =>
          refine ⟨(k, e) :: mem, ?_, fun k' => cacheLookup2_memUpdate mem s k k' e hm hs⟩
          simp [getMovieCacheEntry, cacheLookup2, hm, hs]
      | none =>
          refine ⟨mem, ?_, fun k' => rfl⟩
          simp [getMovieCacheEntry, cacheLookup2, hm, hs]

lemma classifyOne_ok_spec {ε : Type} (now : Int) (targets : List Str) (s : MovieCache)
    (st : ClassifyState) (info : MovieElementInfo) :
    ∃ st₁, classifyOne (ε := ε) now targets (Except.ok s) st info = Except.ok st₁ ∧
      (∀ k, cacheLookup2 st₁.mem s k = cacheLookup2 st.mem s k) ∧
      st₁.trace = st.trace ++ [Event.classified info.elementId] ∧
      st₁.uncached = st.uncached ++
        (if isMiss (cacheLookup2 st.mem s info.cacheKey) then [info] else []) ∧
      st₁.expired = st.expired ++
        (if isStaleHit now (cacheLookup2 st.mem s info.cacheKey) then [info] else []) ∧
      st₁.processed = st.processed ++
        (if isMiss (cacheLookup2 st.mem s info.cacheKey) then [] else [info.elementId]) ∧
      st₁.updates = st.updates ++
        (if isMiss (cacheLookup2 st.mem s info.cacheKey) then []
         else [(info.elementId,
           hasTargetProvider targets (entryProviders (cacheLookup2 st.mem s info.cacheKey)))]) := by
  obtain ⟨mem', hg, hpre⟩ := getMovieCacheEntry_ok_spec (ε := ε) st.mem s info.cacheKey
  cases ho : cacheLookup2 st.mem s info.cacheKey with
  | none =>
      rw [ho] at hg
      refine ⟨⟨mem', st.uncached ++ [info], st.expired, st.updates, st.processed,
        st.trace ++ [Event.classified info.elementId]⟩, ?_, hpre, rfl, ?_, ?_, ?_, ?_⟩
      · simp only [classifyOne, hg]
      · simp [isMiss]
      · simp [isStaleHit]
      · simp [isMiss]
      · simp [isMiss]
  | some entry =>
      rw [ho] at hg
      cases hp : entry.providers with
      | none =>
          refine ⟨⟨mem', st.uncached ++ [info], st.expired, st.updates, st.processed,
            st.trace ++ [Event.classified info.elementId]⟩, ?_, hpre, rfl, ?_, ?_, ?_, ?_⟩
          · simp only [classifyOne, hg, hp]
          · simp [isMiss, hp]
          · simp [isStaleHit, hp]
          · simp [isMiss, hp]
          · simp [isMiss, hp]
      | some ps =>
          refine ⟨⟨mem', st.uncached,
            if isCacheExpired now entry then st.expired ++ [info] else st.expired,
            st.updates ++ [(info.elementId, hasTargetProvider targets ps)],
            st.processed ++ [info.elementId],
            st.trace ++ [Event.classified info.elementId]⟩, ?_, hpre, rfl, ?_, ?_, ?_, ?_⟩
          · simp only [classifyOne, hg, hp]
          · simp [isMiss, hp]
          · cases hexp : isCacheExpired now entry <;> simp [isStaleHit, hp, hexp]
          · simp [isMiss, hp]
          · simp [isMiss, entryProviders, hp]

lemma classifyAll_ok_spec {ε : Type} (now : Int) (targets : List Str) (s : MovieCache)
    (infos : List MovieElementInfo) :
    ∀ (st : ClassifyState),
      ∃ st', classifyAll (ε := ε) now targets (Except.ok s) st infos = Except.ok st' ∧
        (∀ k, cacheLookup2 st'.mem s k = cacheLookup2 st.mem s k) ∧
        st'.trace = st.trace ++ infos.map (fun i => Event.classified i.elementId) ∧
        st'.uncached = st.uncached ++
          infos.filter (fun i => isMiss (cacheLookup2 st.mem s i.cacheKey)) ∧
        st'.expired = st.expired ++
          infos.filter (fun i => isStaleHit now (cacheLookup2 st.mem s i.cacheKey)) ∧
        st'.processed = st.processed ++
          (infos.filter (fun i => !(isMiss (cacheLookup2 st.mem s i.cacheKey)))).map
            (fun i => i.elementId) ∧
        st'.updates = st.updates ++
          (infos.filter (fun i => !(isMiss (cacheLookup2 st.mem s i.cacheKey)))).map
            (fun i => (i.elementId,
              hasTargetProvider targets (entryProviders (cacheLookup2 st.mem s i.cacheKey)))) := by
  induction infos with
  | nil =>
      intro st
      exact ⟨st, rfl, fun k => rfl, by simp, by simp, by simp, by simp, by simp⟩
  | cons info rest ih =>
      intro st
      obtain ⟨st₁, h1, hpre1, ht1, hu1, he1, hp1, hup1⟩ := classifyOne_ok_spec now targets s st info
      obtain ⟨st', h2, hpre2, ht2, hu2, he2, hp2, hup2⟩ := ih st₁
      have hfm : rest.filter (fun i => isMiss (cacheLookup2 st₁.mem s i.cacheKey)) =
          rest.filter (fun i => isMiss (cacheLookup2 st.mem s i.cacheKey)) := by
        apply List.filter_congr
        intro a _
        rw [hpre1 a.cacheKey]
      have hfs : rest.filter (fun i => isStaleHit now (cacheLookup2 st₁.mem s i.cacheKey)) =
          rest.filter (fun i => isStaleHit now (cacheLookup2 st.mem s i.cacheKey)) := by
        apply List.filter_congr
        intro a _
        rw [hpre1 a.cacheKey]
      have hfh : rest.filter (fun i => !(isMiss (cacheLookup2 st₁.mem s i.cacheKey))) =
          rest.filter (fun i => !(isMiss (cacheLookup2 st.mem s i.cacheKey))) := by
        apply List.filter_congr
        intro a _
        rw [hpre1 a.cacheKey]
      have hgm : (rest.filter (fun i => !(isMiss (cacheLookup2 st.mem s i.cacheKey)))).map
            (fun i => (i.elementId,
              hasTargetProvider targets (entryProviders (cacheLookup2 st₁.mem s i.cacheKey)))) =
          (rest.filter (fun i => !(isMiss (cacheLookup2 st.mem s i.cacheKey)))).map
            (fun i => (i.elementId,
              hasTargetProvider targets (entryProviders (cacheLookup2 st.mem s i.cacheKey)))) := by
        apply List.map_congr_left
        intro a _
        rw [hpre1 a.cacheKey]
      refine ⟨st', ?_, ?_, ?_, ?_, ?_, ?_, ?_⟩
      · rw [classifyAll, h1]
        exact h2
      · intro k
        rw [hpre2 k, hpre1 k]
      · rw [ht2, ht1]
        simp
      · rw [hu2, hfm, hu1]
        cases hmiss : isMiss (cacheLookup2 st.mem s info.cacheKey) <;>
          simp [List.filter_cons, hmiss]
      · rw [he2, hfs, he1]
        cases hst : isStaleHit now (cacheLookup2 st.mem s info.cacheKey) <;>
          simp [List.filter_cons, hst]
      · rw [hp2, hfh, hp1]
        cases hmiss : isMiss (cacheLookup2 st.mem s info.cacheKey) <;>
          simp [List.filter_cons, hmiss]
      · rw [hup2, hfh, hgm, hup1]
        cases hmiss : isMiss (cacheLookup2 st.mem s info.cacheKey) <;>
          simp [List.filter_cons, hmiss]

lemma resolveAll_spec (now : Int) (targets : List Str) (net : Nat → NetOutcome)
    (mkEvent : Nat → Event) (queue : List MovieElementInfo) :
    ∀ (st : ResolveState),
      (resolveAll now targets net mkEvent st queue).trace =
        st.trace ++ queue.map (fun i => mkEvent i.elementId) ∧
      (resolveAll now targets net mkEvent st queue).processed =
        st.processed ++ queue.map (fun i => i.elementId) ∧
      (resolveAll now targets net mkEvent st queue).updates =
        st.updates ++ queue.map (fun i =>
          (i.elementId, (processMovieWithTMDB now targets (net i.elementId)).2)) ∧
      (∀ ke ∈ (resolveAll now targets net mkEvent st queue).storage,
        ke ∈ st.storage ∨ ∃ i ∈ queue,
          ke = (i.cacheKey, (processMovieWithTMDB now targets (net i.elementId)).1)) := by
  induction queue with
  | nil =>
      intro st
      exact ⟨by simp [resolveAll], by simp [resolveAll], by simp [resolveAll],
        fun ke hke => Or.inl hke⟩
  | cons info rest ih =>
      intro st
      obtain ⟨ht, hp, hu, hs⟩ := ih
        ⟨(info.cacheKey, (processMovieWithTMDB now targets (net info.elementId)).1) :: st.mem,
         (info.cacheKey, (processMovieWithTMDB now targets (net info.elementId)).1) :: st.storage,
         st.updates ++ [(info.elementId, (processMovieWithTMDB now targets (net info.elementId)).2)],
         st.processed ++ [info.elementId],
         st.trace ++ [mkEvent info.elementId]⟩
      refine ⟨?_, ?_, ?_, ?_⟩
      · rw [resolveAll, ht]
        simp
      · rw [resolveAll, hp]
        simp
      · rw [resolveAll, hu]
        simp
      · intro ke hke
        rw [resolveAll] at hke
        rcases hs ke hke with hke1 | ⟨i, hi, hei⟩
        · rcases List.mem_cons.mp hke1 with hke2 | hke2
          · exact Or.inr ⟨info, List.mem_cons_self info rest, hke2⟩
          · exact Or.inl hke2
        · exact Or.inr ⟨i, List.mem_cons_of_mem _ hi, hei⟩

lemma processAllMovies_ok_spec {ε : Type} (now : Int) (targets : List Str)
    (p0 : List Nat) (mem0 s : MovieCache) (net : Nat → NetOutcome)
    (els : List MovieElement) :
    ∃ res, processAllMovies (ε := ε) now targets p0 mem0 (Except.ok s) net els =
        Except.ok res ∧
      res.uncached = (collectInfos p0 els).filter
        (fun i => isMiss (cacheLookup2 mem0 s i.cacheKey)) ∧
      res.expired = (collectInfos p0 els).filter
        (fun i => isStaleHit now (cacheLookup2 mem0 s i.cacheKey)) ∧
      res.trace = (collectInfos p0 els).map (fun i => Event.classified i.elementId) ++
        res.uncached.map (fun i => Event.resolvedMiss i.elementId) ++
        res.expired.map (fun i => Event.resolvedStale i.elementId) ∧
      res.processed = p0 ++
        ((collectInfos p0 els).filter
          (fun i => !(isMiss (cacheLookup2 mem0 s i.cacheKey)))).map (fun i => i.elementId) ++
        res.uncached.map (fun i => i.elementId) ++
        res.expired.map (fun i => i.elementId) ∧
      res.updates = ((collectInfos p0 els).filter
          (fun i => !(isMiss (cacheLookup2 mem0 s i.cacheKey)))).map
          (fun i => (i.elementId,
            hasTargetProvider targets (entryProviders (cacheLookup2 mem0 s i.cacheKey)))) ++
        res.uncached.map (fun i =>
          (i.elementId, (processMovieWithTMDB now targets (net i.elementId)).2)) ++
        res.expired.map (fun i =>
          (i.elementId, (processMovieWithTMDB now targets (net i.elementId)).2)) ∧
      (∀ ke ∈ res.storage, ke ∈ s ∨ ∃ i, (i ∈ res.uncached ∨ i ∈ res.expired) ∧
        ke = (i.cacheKey, (processMovieWithTMDB now targets (net i.elementId)).1)) := by
  obtain ⟨cst, hc, hcpre, hct, hcu, hce, hcp, hcup⟩ :=
    classifyAll_ok_spec (ε := ε) now targets s (collectInfos p0 els)
      ⟨mem0, [], [], [], p0, []⟩
  simp only [List.nil_append] at hct hcu hce hcup
  obtain ⟨h1t, h1p, h1u, h1s⟩ := resolveAll_spec now targets net Event.resolvedMiss
    cst.uncached ⟨cst.mem, s, cst.updates, cst.processed, cst.trace⟩
  obtain ⟨h2t, h2p, h2u, h2s⟩ := resolveAll_spec now targets net Event.resolvedStale
    cst.expired (resolveAll now targets net Event.resolvedMiss
      ⟨cst.mem, s, cst.updates, cst.processed, cst.trace⟩ cst.uncached)
  refine ⟨⟨cst.uncached, cst.expired,
    (resolveAll now targets net Event.resolvedStale
      (resolveAll now targets net Event.resolvedMiss
        ⟨cst.mem, s, cst.updates, cst.processed, cst.trace⟩ cst.uncached) cst.expired).updates,
    (resolveAll now targets net Event.resolvedStale
      (resolveAll now targets net Event.resolvedMiss
        ⟨cst.mem, s, cst.updates, cst.processed, cst.trace⟩ cst.uncached) cst.expired).processed,
    (resolveAll now targets net Event.resolvedStale
      (resolveAll now targets net Event.resolvedMiss
        ⟨cst.mem, s, cst.updates, cst.processed, cst.trace⟩ cst.uncached) cst.expired).mem,
    (resolveAll now targets net Event.resolvedStale
      (resolveAll now targets net Event.resolvedMiss
        ⟨cst.mem, s, cst.updates, cst.processed, cst.trace⟩ cst.uncached) cst.expired).storage,
    (resolveAll now targets net Event.resolvedStale
      (resolveAll now targets net Event.resolvedMiss
        ⟨cst.mem, s, cst.updates, cst.processed, cst.trace⟩ cst.uncached) cst.expired).trace⟩,
    ?_, hcu, hce, ?_, ?_, ?_, ?_⟩
  · rw [processAllMovies, hc]
  · rw [h2t, h1t, hct]
  · rw [h2p, h1p, hcp]
  · rw [h2u, h1u, hcup]
  · intro ke hke
    rcases h2s ke hke with hke1 | ⟨i, hi, hei⟩
    · rcases h1s ke hke1 with hke2 | ⟨i, hi, hei⟩
      · exact Or.inl hke2
      · exact Or.inr ⟨i, Or.inl hi, hei⟩
    · exact Or.inr ⟨i, Or.inr hi, hei⟩

lemma getMovieElementInfoOf_id {el : MovieElement} {info : MovieElementInfo}
    (h : getMovieElementInfoOf el = some info) : info.elementId = el.id := by
  cases ht : el.titleText with
  | none =>
      rw [getMovieElementInfoOf, ht] at h
      exact absurd h (by simp)
  | some raw =>
      rw [getMovieElementInfoOf, ht] at h
      simp only [Option.some_inj] at h
      rw [← h]

lemma collectInfos_not_processed (p0 : List Nat) (els : List MovieElement) :
    ∀ {info : MovieElementInfo}, info ∈ collectInfos p0 els →
      p0.contains info.elementId = false := by
  induction els with
  | nil =>
      intro info h
      simp [collectInfos] at h
  | cons el rest ih =>
      intro info h
      rw [collectInfos] at h
      by_cases hc : p0.contains el.id = true
      · rw [if_pos hc] at h
        exact ih h
      · rw [if_neg hc] at h
        cases hi : getMovieElementInfoOf el with
        | none =>
            simp only [hi] at h
            exact ih h
        | some i0 =>
            simp only [hi] at h
            by_cases ht : i0.title = []
            · rw [if_pos ht] at h
              exact ih h
            · rw [if_neg ht] at h
              rcases List.mem_cons.mp h with h | h
              · subst h
                rw [getMovieElementInfoOf_id hi]
                cases hb : p0.contains el.id with
                | false => rfl
                | true => exact absurd hb hc
              · exact ih h

/-- **C4 counterexample.** A failing persisted-tier read is *not* treated
as a cache miss: `getMovieCacheEntry` has no try/catch, so with an empty
memory tier the storage error propagates out of the classification loop and
aborts the whole batch — the element is never fetched from the network,
refuting the claim that such a failure degrades to "always fetch" and never
aborts the pipeline. -/
theorem storage_error_C4_counterexample :
    getMovieCacheEntry ([] : MovieCache) (Except.error 0) (String.toList "k-") =
      Except.error 0 ∧
    processAllMovies 0 [] [] [] (Except.error 0)
      (fun _ => ⟨Except.error (), Except.error ()⟩)
      [⟨1, some (String.toList "A")⟩] = Except.error 0 :=
  ⟨rfl, rfl⟩

/-- **C4 (amended).** A persisted-tier read failure during cache access is
not caught: when the key is absent from the memory tier,
`getMovieCacheEntry` propagates the storage error, and with an empty memory
tier any batch with at least one candidate aborts classification with that
error (no element of the batch is fetched from the network). Failures of
the network lookups themselves are the ones absorbed per element (see
`processMovieWithTMDB`). -/
theorem storage_error_C4_amended {ε : Type} (e : ε) (mem : MovieCache) (key : Str)
    (now : Int) (targets : List Str) (p0 : List Nat) (net : Nat → NetOutcome)
    (els : List MovieElement) :
    (List.lookup key mem = none →
      getMovieCacheEntry mem (Except.error e) key = Except.error e) ∧
    (collectInfos p0 els ≠ [] →
      processAllMovies now targets p0 [] (Except.error e) net els = Except.error e) := by
  constructor
  · intro hl
    simp [getMovieCacheEntry, hl]
  · intro hne
    cases hi : collectInfos p0 els with
    | nil => exact absurd hi hne
    | cons info rest =>
        simp [processAllMovies, hi, classifyAll, classifyOne, getMovieCacheEntry]

/-- Concrete instance of `storage_error_C4_amended`: a storage read failing
with error 7 propagates out of the cache accessor and aborts a one-element
batch. -/
theorem storage_error_C4_amended_witness :
    getMovieCacheEntry ([] : MovieCache) (Except.error 7) (String.toList "x-") =
      Except.error 7 ∧
    processAllMovies 0 [] [] [] (Except.error 7)
      (fun _ => ⟨Except.error (), Except.error ()⟩)
      [⟨2, some (String.toList "B")⟩] = Except.error 7 := by
  have h := storage_error_C4_amended (ε := Nat) 7 [] (String.toList "x-") 0 [] []
    (fun _ => ⟨Except.error (), Except.error ()⟩) [⟨2, some (String.toList "B")⟩]
  exact ⟨h.1 rfl, h.2 (by decide)⟩

/-- **C5.** Classifying an element whose key maps to a cache entry with a
defined `providers` field while `now - timestamp < CACHE_LIFETIME_MS`
performs no network call: the element is placed in neither the miss queue
nor the stale-refresh queue (the only queues the resolution steps draw
from), the cached availability is applied to the element, and the element
is marked processed. -/
theorem fresh_hit_C5 {ε : Type} (now : Int) (targets : List Str) (p0 : List Nat)
    (mem0 s : MovieCache) (net : Nat → NetOutcome) (els : List MovieElement)
    (res : PipelineResult) (info : MovieElementInfo) (entry : MovieCacheEntry)
    (ps : List Str)
    (hrun : processAllMovies (ε := ε) now targets p0 mem0 (Except.ok s) net els =
      Except.ok res)
    (hmem : cacheLookup2 mem0 s info.cacheKey = some entry)
    (hps : entry.providers = some ps)
    (hfresh : now - entry.timestamp < CACHE_LIFETIME_MS) :
    info ∉ res.uncached ∧ info ∉ res.expired ∧
    (info ∈ collectInfos p0 els →
      (info.elementId, hasTargetProvider targets ps) ∈ res.updates ∧
      info.elementId ∈ res.processed) := by
  obtain ⟨res', heq, hu, he, htr, hp, hup, hst⟩ :=
    processAllMovies_ok_spec (ε := ε) now targets p0 mem0 s net els
  rw [hrun] at heq
  have hres := Except.ok.inj heq
  subst hres
  have hmiss : isMiss (cacheLookup2 mem0 s info.cacheKey) = false := by
    rw [hmem]
    simp [isMiss, hps]
  have hstale : isStaleHit now (cacheLookup2 mem0 s info.cacheKey) = false := by
    rw [hmem]
    simp only [isStaleHit, hps, isCacheExpired, Option.isSome_some, Bool.true_and,
      decide_eq_false_iff_not]
    simp only [CACHE_LIFETIME_MS] at hfresh ⊢
    omega
  refine ⟨?_, ?_, ?_⟩
  · rw [hu]
    intro hmemU
    have h2 := (List.mem_filter.mp hmemU).2
    simp only [hmiss] at h2
    exact Bool.false_ne_true h2
  · rw [he]
    intro hmemE
    have h2 := (List.mem_filter.mp hmemE).2
    simp only [hstale] at h2
    exact Bool.false_ne_true h2
  · intro hin
    constructor
    · rw [hup]
      apply List.mem_append.mpr
      left
      apply List.mem_append.mpr
      left
      apply List.mem_map.mpr
      refine ⟨info, List.mem_filter.mpr ⟨hin, by simp [hmiss]⟩, ?_⟩
      rw [hmem]
      simp [entryProviders, hps]
    · rw [hp]
      apply List.mem_append.mpr
      left
      apply List.mem_append.mpr
      left
      apply List.mem_append.mpr
      right
      apply List.mem_map.mpr
      exact ⟨info, List.mem_filter.mpr ⟨hin, by simp [hmiss]⟩, rfl⟩

/-- Concrete instance of `fresh_hit_C5`: a fresh cached hit applies the
cached availability and joins neither queue. -/
theorem fresh_hit_C5_witness :
    ((1 : Nat), true) ∈ [((1 : Nat), true)] ∧
    (⟨1, String.toList "A", [], String.toList "a-"⟩ : MovieElementInfo) ∉
      ([] : List MovieElementInfo) := by
  have h := fresh_hit_C5 (ε := Nat) 1 [String.toList "netflix"] [] []
    [(String.toList "a-", ⟨some 3, some [String.toList "netflix"], 0⟩)]
    (fun _ => ⟨Except.error (), Except.error ()⟩)
    [⟨1, some (String.toList "A")⟩]
    ⟨[], [], [(1, true)], [1],
      [(String.toList "a-", ⟨some 3, some [String.toList "netflix"], 0⟩)],
      [(String.toList "a-", ⟨some 3, some [String.toList "netflix"], 0⟩)],
      [Event.classified 1]⟩
    ⟨1, String.toList "A", [], String.toList "a-"⟩
    ⟨some 3, some [String.toList "netflix"], 0⟩
    [String.toList "netflix"]
    rfl rfl rfl (by decide)
  exact ⟨(h.2.2 (by decide)).1, h.1⟩

/-- **C6.** An entry is expired exactly when
`now - timestamp >= 12 * 60 * 60 * 1000`; a stale hit (defined `providers`,
expired) still has its cached availability applied to the element
immediately *and* is enqueued on the stale-refresh queue, never on the miss
queue; and the batch trace is exactly all classifications, then all miss
resolutions, then all stale refreshes — so the background refresh runs
after every cache miss has resolved. -/
theorem stale_refresh_C6 {ε : Type} (now : Int) (targets : List Str) (p0 : List Nat)
    (mem0 s : MovieCache) (net : Nat → NetOutcome) (els : List MovieElement)
    (res : PipelineResult) (info : MovieElementInfo) (entry : MovieCacheEntry)
    (ps : List Str)
    (hrun : processAllMovies (ε := ε) now targets p0 mem0 (Except.ok s) net els =
      Except.ok res)
    (hmem : cacheLookup2 mem0 s info.cacheKey = some entry)
    (hps : entry.providers = some ps) :
    (isCacheExpired now entry = true ↔ 12 * 60 * 60 * 1000 ≤ now - entry.timestamp) ∧
    (CACHE_LIFETIME_MS ≤ now - entry.timestamp → info ∈ collectInfos p0 els →
      info ∈ res.expired ∧ info ∉ res.uncached ∧
      (info.elementId, hasTargetProvider targets ps) ∈ res.updates) ∧
    res.trace = (collectInfos p0 els).map (fun i => Event.classified i.elementId) ++
      res.uncached.map (fun i => Event.resolvedMiss i.elementId) ++
      res.expired.map (fun i => Event.resolvedStale i.elementId) := by
  obtain ⟨res', heq, hu, he, htr, hp, hup, hst⟩ :=
    processAllMovies_ok_spec (ε := ε) now targets p0 mem0 s net els
  rw [hrun] at heq
  have hres := Except.ok.inj heq
  subst hres
  have hmiss : isMiss (cacheLookup2 mem0 s info.cacheKey) = false := by
    rw [hmem]
    simp [isMiss, hps]
  refine ⟨?_, ?_, htr⟩
  · simp only [isCacheExpired, CACHE_LIFETIME_MS, decide_eq_true_eq]
  · intro hexp hin
    have hstale : isStaleHit now (cacheLookup2 mem0 s info.cacheKey) = true := by
      rw [hmem]
      simp only [isStaleHit, hps, isCacheExpired, Option.isSome_some, Bool.true_and,
        decide_eq_true_eq]
      exact hexp
    refine ⟨?_, ?_, ?_⟩
    · rw [he]
      exact List.mem_filter.mpr ⟨hin, by simp [hstale]⟩
    · rw [hu]
      intro hmemU
      have h2 := (List.mem_filter.mp hmemU).2
      simp only [hmiss] at h2
      exact Bool.false_ne_true h2
    · rw [hup]
      apply List.mem_append.mpr
      left
      apply List.mem_append.mpr
      left
      apply List.mem_map.mpr
      refine ⟨info, List.mem_filter.mpr ⟨hin, by simp [hmiss]⟩, ?_⟩
      rw [hmem]
      simp [entryProviders, hps]

/-- Concrete instance of `stale_refresh_C6`: an entry written at time 0 and
classified at time `43200000` (exactly 12 hours later) is expired, its
availability is still applied, and it lands on the stale queue. -/
theorem stale_refresh_C6_witness :
    (isCacheExpired 43200000 ⟨some 3, some [String.toList "netflix"], 0⟩ = true ↔
      12 * 60 * 60 * 1000 ≤ (43200000 : Int) - 0) ∧
    (⟨1, String.toList "A", [], String.toList "a-"⟩ : MovieElementInfo) ∈
      [(⟨1, String.toList "A", [], String.toList "a-"⟩ : MovieElementInfo)] := by
  have h := stale_refresh_C6 (ε := Nat) 43200000 [String.toList "netflix"] [] []
    [(String.toList "a-", ⟨some 3, some [String.toList "netflix"], 0⟩)]
    (fun _ => ⟨Except.ok (some 9), Except.ok [String.toList "netflix"]⟩)
    [⟨1, some (String.toList "A")⟩]
    ⟨[], [⟨1, String.toList "A", [], String.toList "a-"⟩], [(1, true), (1, true)], [1, 1],
      [(String.toList "a-", ⟨some 9, some [String.toList "netflix"], 43200000⟩),
       (String.toList "a-", ⟨some 3, some [String.toList "netflix"], 0⟩)],
      [(String.toList "a-", ⟨some 9, some [String.toList "netflix"], 43200000⟩),
       (String.toList "a-", ⟨some 3, some [String.toList "netflix"], 0⟩)],
      [Event.classified 1, Event.resolvedStale 1]⟩
    ⟨1, String.toList "A", [], String.toList "a-"⟩
    ⟨some 3, some [String.toList "netflix"], 0⟩
    [String.toList "netflix"]
    rfl rfl rfl
  exact ⟨h.1, (h.2.1 (by decide) (by decide)).1⟩

/-- **C8 counterexample.** An element with no `.frame-title` node passes
through Collect, is discarded, and is *not* marked processed: the batch
result records no processed id for it (the `processedElements.add` calls
only run for elements that survive Collect), so a future batch will
reconsider the same node — refuting the claim's parenthetical that
discarded elements are marked too. -/
theorem processed_C8_counterexample :
    processAllMovies (ε := Nat) 0 [] [] [] (Except.ok [])
      (fun _ => ⟨Except.error (), Except.error ()⟩) [⟨7, none⟩] =
      Except.ok ⟨[], [], [], [], [], [], []⟩ :=
  rfl

/-- **C8 (amended).** Every element that *survives* Collect (has a title
node and a nonempty extracted title) is marked processed by the end of the
batch; ids already processed stay processed; and an element already marked
processed is never reconsidered — it yields no info and no event of the
batch concerns it. Elements discarded during Collect are not marked and
will be reconsidered by future batches. -/
theorem processed_C8_amended {ε : Type} (now : Int) (targets : List Str) (p0 : List Nat)
    (mem0 s : MovieCache) (net : Nat → NetOutcome) (els : List MovieElement)
    (res : PipelineResult)
    (hrun : processAllMovies (ε := ε) now targets p0 mem0 (Except.ok s) net els =
      Except.ok res) :
    (∀ info ∈ collectInfos p0 els, info.elementId ∈ res.processed) ∧
    (∀ id ∈ p0, id ∈ res.processed) ∧
    (∀ info ∈ collectInfos p0 els, p0.contains info.elementId = false) ∧
    (∀ ev ∈ res.trace, p0.contains ev.idOf = false) := by
  obtain ⟨res', heq, hu, he, htr, hp, hup, hst⟩ :=
    processAllMovies_ok_spec (ε := ε) now targets p0 mem0 s net els
  rw [hrun] at heq
  have hres := Except.ok.inj heq
  subst hres
  refine ⟨?_, ?_, fun info hin => collectInfos_not_processed p0 els hin, ?_⟩
  · intro info hin
    rw [hp]
    cases hmiss : isMiss (cacheLookup2 mem0 s info.cacheKey) with
    | false =>
        apply List.mem_append.mpr
        left
        apply List.mem_append.mpr
        left
        apply List.mem_append.mpr
        right
        exact List.mem_map.mpr ⟨info, List.mem_filter.mpr ⟨hin, by simp [hmiss]⟩, rfl⟩
    | true =>
        apply List.mem_append.mpr
        left
        apply List.mem_append.mpr
        right
        apply List.mem_map.mpr
        refine ⟨info, ?_, rfl⟩
        rw [hu]
        exact List.mem_filter.mpr ⟨hin, by simp [hmiss]⟩
  · intro id hid
    rw [hp]
    apply List.mem_append.mpr
    left
    apply List.mem_append.mpr
    left
    apply List.mem_append.mpr
    left
    exact hid
  · intro ev hev
    rw [htr] at hev
    rcases List.mem_append.mp hev with hev1 | hev1
    · rcases List.mem_append.mp hev1 with hev2 | hev2
      · obtain ⟨i, hi, rfl⟩ := List.mem_map.mp hev2
        simpa [Event.idOf] using collectInfos_not_processed p0 els hi
      · obtain ⟨i, hi, rfl⟩ := List.mem_map.mp hev2
        rw [hu] at hi
        simpa [Event.idOf] using
          collectInfos_not_processed p0 els (List.mem_filter.mp hi).1
    · obtain ⟨i, hi, rfl⟩ := List.mem_map.mp hev1
      rw [he] at hi
      simpa [Event.idOf] using
        collectInfos_not_processed p0 els (List.mem_filter.mp hi).1

/-- Concrete instance of `processed_C8_amended`: the surviving element 1 is
marked processed and was not in the pre-batch processed set. -/
theorem processed_C8_amended_witness :
    ([] : List Nat).contains 1 = false ∧ (1 : Nat) ∈ ([1] : List Nat) := by
  have h := processed_C8_amended (ε := Nat) 0 [] [] [] []
    (fun _ => ⟨Except.error (), Except.error ()⟩)
    [⟨1, some (String.toList "A")⟩]
    ⟨[⟨1, String.toList "A", [], String.toList "a-"⟩], [], [(1, false)], [1],
      [(String.toList "a-", ⟨none, some [], 0⟩)],
      [(String.toList "a-", ⟨none, some [], 0⟩)],
      [Event.classified 1, Event.resolvedMiss 1]⟩
    rfl
  exact ⟨h.2.2.1 ⟨1, String.toList "A", [], String.toList "a-"⟩ (by decide),
    h.1 ⟨1, String.toList "A", [], String.toList "a-"⟩ (by decide)⟩

/-- **C10.** Every cache entry the pipeline writes has a defined
`providers` array — `some []` on not-found and on every caught lookup
failure (the negative cache) — so the persisted tier only ever gains
entries with defined providers; and during classification an entry whose
`providers` field is absent is treated as a cache miss: the element joins
the miss queue and is re-fetched even though the key is present in the
cache. -/
theorem negative_cache_C10 {ε : Type} (now : Int) (targets : List Str) (p0 : List Nat)
    (mem0 s : MovieCache) (net : Nat → NetOutcome) (els : List MovieElement)
    (res : PipelineResult)
    (hrun : processAllMovies (ε := ε) now targets p0 mem0 (Except.ok s) net els =
      Except.ok res) :
    (∀ nout : NetOutcome,
      ((processMovieWithTMDB now targets nout).1).providers.isSome = true) ∧
    (∀ nout : NetOutcome, nout.search = Except.ok none →
      (processMovieWithTMDB now targets nout).1 = ⟨none, some [], now⟩) ∧
    (∀ nout : NetOutcome, nout.search = Except.error () →
      (processMovieWithTMDB now targets nout).1 = ⟨none, some [], now⟩) ∧
    (∀ (nout : NetOutcome) (mid : Nat), nout.search = Except.ok (some mid) →
      nout.providers = Except.error () →
      (processMovieWithTMDB now targets nout).1 = ⟨none, some [], now⟩) ∧
    (∀ ke ∈ res.storage, ke ∈ s ∨ (ke.2).providers.isSome = true) ∧
    (∀ info entry, info ∈ collectInfos p0 els →
      cacheLookup2 mem0 s info.cacheKey = some entry → entry.providers = none →
      info ∈ res.uncached) := by
  obtain ⟨res', heq, hu, he, htr, hp, hup, hst⟩ :=
    processAllMovies_ok_spec (ε := ε) now targets p0 mem0 s net els
  rw [hrun] at heq
  have hres := Except.ok.inj heq
  subst hres
  have hprov : ∀ nout : NetOutcome,
      ((processMovieWithTMDB now targets nout).1).providers.isSome = true := by
    intro nout
    rcases hs1 : nout.search with e | o
    · simp [processMovieWithTMDB, hs1]
    · cases o with
      | none => simp [processMovieWithTMDB, hs1]
      | some mid =>
          rcases hp1 : nout.providers with e | ps
          · simp [processMovieWithTMDB, hs1, hp1]
          · simp [processMovieWithTMDB, hs1, hp1]
  refine ⟨hprov, ?_, ?_, ?_, ?_, ?_⟩
  · intro nout hs1
    simp [processMovieWithTMDB, hs1]
  · intro nout hs1
    simp [processMovieWithTMDB, hs1]
  · intro nout mid hs1 hp1
    simp [processMovieWithTMDB, hs1, hp1]
  · intro ke hke
    rcases hst ke hke with hke1 | ⟨i, _, hkeq⟩
    · exact Or.inl hke1
    · right
      rw [hkeq]
      exact hprov (net i.elementId)
  · intro info entry hin hmem hnone
    rw [hu]
    apply List.mem_filter.mpr
    refine ⟨hin, ?_⟩
    simp [isMiss, hmem, hnone]

/-- Concrete instance of `negative_cache_C10`: the negative entry written
after a failed lookup has `providers = some []`, and a cached entry with an
absent `providers` field sends its element to the miss queue. -/
theorem negative_cache_C10_witness :
    ((⟨none, some [], 5⟩ : MovieCacheEntry)).providers.isSome = true ∧
    (⟨1, String.toList "A", [], String.toList "a-"⟩ : MovieElementInfo) ∈
      [(⟨1, String.toList "A", [], String.toList "a-"⟩ : MovieElementInfo)] := by
  have h := negative_cache_C10 (ε := Nat) 5 [] [] []
    [(String.toList "a-", ⟨some 3, none, 0⟩)]
    (fun _ => ⟨Except.error (), Except.error ()⟩)
    [⟨1, some (String.toList "A")⟩]
    ⟨[⟨1, String.toList "A", [], String.toList "a-"⟩], [], [(1, false)], [1],
      [(String.toList "a-", ⟨none, some [], 5⟩),
       (String.toList "a-", ⟨some 3, none, 0⟩)],
      [(String.toList "a-", ⟨none, some [], 5⟩),
       (String.toList "a-", ⟨some 3, none, 0⟩)],
      [Event.classified 1, Event.resolvedMiss 1]⟩
    rfl
  exact ⟨h.1 ⟨Except.error (), Except.error ()⟩,
    h.2.2.2.2.2 ⟨1, String.toList "A", [], String.toList "a-"⟩
      ⟨some 3, none, 0⟩ (by decide) rfl rfl⟩

end LetterboxdUtils
